import Mathlib

/-!
Shallow embedding of `triangula/chassis.py` (the Triangula holonomic chassis
kinematics module) and proofs about it.

Python floats are modelled as real numbers, `None`-able parameters as `Option`,
and `euclid.Vector2` / `euclid.Point2` as pairs of reals with the operations the
module uses (`cross` is the euclid convention `(y, -x)`).  Python's float `%` is
`a - m * ⌊a / m⌋`.  `numpy.linalg.solve` on the 3×3 system is modelled by the
exact solution of the nonsingular linear system (Cramer's rule), returning
`none` for a singular or non-square system, mirroring the raised `LinAlgError`.
-/

/-- A 2D vector, modelling `euclid.Vector2` with real components. -/
structure Vec2 where
  x : ℝ
  y : ℝ

/-- A 2D point, modelling `euclid.Point2` with real components. -/
structure Point2 where
  x : ℝ
  y : ℝ

/-- Componentwise vector addition, as in euclid. -/
noncomputable def Vec2.add (a b : Vec2) : Vec2 := ⟨a.x + b.x, a.y + b.y⟩

/-- Dot product `x1*x2 + y1*y2`, as in euclid. -/
noncomputable def Vec2.dot (a b : Vec2) : ℝ := a.x * b.x + a.y * b.y

/-- The euclid `Vector2.cross` of a single 2D vector: the perpendicular `(y, -x)`. -/
noncomputable def Vec2.cross (v : Vec2) : Vec2 := ⟨v.y, -v.x⟩

/-- The euclid `magnitude_squared`: `x*x + y*y`. -/
noncomputable def Vec2.magnitude_squared (v : Vec2) : ℝ := v.x * v.x + v.y * v.y

/-- Scalar multiplication of a vector on the right, `v * k` in Python. -/
noncomputable def Vec2.mulScalar (v : Vec2) (k : ℝ) : Vec2 := ⟨v.x * k, v.y * k⟩

/-- Scalar division of a vector, `v / k` in Python. -/
noncomputable def Vec2.divScalar (v : Vec2) (k : ℝ) : Vec2 := ⟨v.x / k, v.y / k⟩

/-- Point difference `p - q`, yielding a vector, as in euclid. -/
noncomputable def Point2.subPoint (p q : Point2) : Vec2 := ⟨p.x - q.x, p.y - q.y⟩

/-- Point plus vector `p + v`, yielding a point, as in euclid. -/
noncomputable def Point2.addVec (p : Point2) (v : Vec2) : Point2 := ⟨p.x + v.x, p.y + v.y⟩

/-- Python float modulus: `a % m = a - m * floor (a / m)` (result has the sign
of the divisor, exactly Python's float `%` semantics over the reals). -/
noncomputable def fmod (a m : ℝ) : ℝ := a - m * ⌊a / m⌋

/-- Embedding of `chassis.rotate_point`: rotate a `Point2` around another
`Point2` by `angle` radians (anti-clockwise). -/
noncomputable def rotate_point (point : Point2) (angle : ℝ) (origin : Point2) : Point2 :=
  ⟨Real.cos angle * (point.x - origin.x) - Real.sin angle * (point.y - origin.y) + origin.x,
   Real.sin angle * (point.x - origin.x) + Real.cos angle * (point.y - origin.y) + origin.y⟩

/-- Embedding of `chassis.rotate_vector`: same formula as `rotate_point`, applied
to a `Vec2` (the Python code subtracts and re-adds the origin even for vectors). -/
noncomputable def rotate_vector (vector : Vec2) (angle : ℝ) (origin : Point2) : Vec2 :=
  ⟨Real.cos angle * (vector.x - origin.x) - Real.sin angle * (vector.y - origin.y) + origin.x,
   Real.sin angle * (vector.x - origin.x) + Real.cos angle * (vector.y - origin.y) + origin.y⟩

/-- Embedding of `chassis.smallest_difference(a, b, max_value)`.  The Python
default `max_value=2*pi` is passed explicitly by callers here. -/
noncomputable def smallest_difference (a b max_value : ℝ) : ℝ :=
  if |fmod a max_value - fmod b max_value| ≤ max_value / 2 then
    fmod b max_value - fmod a max_value
  else if fmod b max_value ≤ fmod a max_value then
    max_value - (fmod a max_value + fmod b max_value)
  else
    fmod b max_value + fmod a max_value - max_value

/-- Embedding of `chassis.Motion`: robot-frame translation (mm/s) and
rotation (rad/s). -/
structure Motion where
  translation : Vec2
  rotation : ℝ

/-- Embedding of `chassis.Pose`: world-frame position and orientation in
radians.  Raw structure; the constructor `mkPose` performs the
normalisation done by `Pose.__init__`. -/
structure Pose where
  position : Point2
  orientation : ℝ

/-- Embedding of `Pose.__init__`: stores the position and the orientation
normalised by `% (2 * pi)`. -/
noncomputable def mkPose (position : Point2) (orientation : ℝ) : Pose :=
  ⟨position, fmod orientation (2 * Real.pi)⟩

/-- Embedding of `Pose.calculate_pose_change(motion, time)`.  With nonzero
rotation: the final orientation is `orientation + rotation * time`; the centre
of rotation is `rotate_vector(translation, -orientation).cross() / rotation`
taken as a point, and the position is rotated about that centre by the angle
`motion.rotation` (exactly as the Python source does — note the angle is the
rotation rate, not `rotation * time`).  With zero rotation the position
advances by the world-frame translation and the orientation is unchanged.
Both branches return through the normalising constructor `Pose(...)`. -/
noncomputable def Pose.calculate_pose_change (self : Pose) (motion : Motion) (time : ℝ) : Pose :=
  if motion.rotation ≠ 0 then
    mkPose
      (rotate_point self.position motion.rotation
        (let corv :=
          ((rotate_vector motion.translation (-self.orientation) ⟨0, 0⟩).cross).divScalar
            motion.rotation
         ⟨corv.x, corv.y⟩))
      (self.orientation + motion.rotation * time)
  else
    mkPose (self.position.addVec (rotate_vector motion.translation (-self.orientation) ⟨0, 0⟩))
      self.orientation

/-- Embedding of `chassis.WheelSpeeds`: per-wheel speeds plus the applied
scaling. -/
structure WheelSpeeds where
  speeds : List ℝ
  scaling : ℝ

/-- Embedding of `chassis.HoloChassis.OmniWheel` after construction: the wheel
position, its optional maximum speed (`None` = unconstrained) and its drive
vector. -/
structure OmniWheel where
  position : Point2
  max_speed : Option ℝ
  vector : Vec2

/-- The cached `vector_magnitude_squared` of a wheel. -/
noncomputable def OmniWheel.vector_magnitude_squared (w : OmniWheel) : ℝ :=
  w.vector.magnitude_squared

/-- The cached coefficient `co_x = vector.x / vector_magnitude_squared`. -/
noncomputable def OmniWheel.co_x (w : OmniWheel) : ℝ :=
  w.vector.x / w.vector_magnitude_squared

/-- The cached coefficient `co_y = vector.y / vector_magnitude_squared`. -/
noncomputable def OmniWheel.co_y (w : OmniWheel) : ℝ :=
  w.vector.y / w.vector_magnitude_squared

/-- The cached coefficient
`co_theta = (vector.x * position.y - vector.y * position.x) / vector_magnitude_squared`. -/
noncomputable def OmniWheel.co_theta (w : OmniWheel) : ℝ :=
  (w.vector.x * w.position.y - w.vector.y * w.position.x) / w.vector_magnitude_squared

/-- Embedding of `OmniWheel.speed(velocity)`:
`velocity.dot(vector) / vector_magnitude_squared`. -/
noncomputable def OmniWheel.speed (w : OmniWheel) (velocity : Vec2) : ℝ :=
  velocity.dot w.vector / w.vector_magnitude_squared

/-- Embedding of `OmniWheel.__init__`: the argument validation accepts either a
drive vector alone (`angle` and `radius` both `None`), or both `angle` and
`radius` with no vector, in which case the vector is
`(sin(angle), cos(angle)) * 2*pi*radius`; every other combination raises
`ValueError`, modelled as `none`.  After validation the constructor computes
`co_x = vector.x / vector_magnitude_squared` (and `co_y`, `co_theta`): when the
accepted drive vector has zero magnitude (a `(0, 0)` vector, or `radius = 0`)
this division raises `ZeroDivisionError` and construction still produces no
wheel, also modelled as `none`. -/
noncomputable def OmniWheel.make (position : Point2) (max_speed : Option ℝ)
    (angle radius : Option ℝ) (vector : Option Vec2) : Option OmniWheel :=
  match angle, radius, vector with
  | none, none, some v =>
      if v.magnitude_squared = 0 then none else some ⟨position, max_speed, v⟩
  | some a, some r, none =>
      if (Vec2.mk (Real.sin a * (2 * Real.pi * r))
            (Real.cos a * (2 * Real.pi * r))).magnitude_squared = 0 then none
      else
        some ⟨position, max_speed,
          ⟨Real.sin a * (2 * Real.pi * r), Real.cos a * (2 * Real.pi * r)⟩⟩
  | _, _, _ => none

/-- The Python signature `def __init__(self, position, max_speed=0, ...)`
defaults `max_speed` to `0` (not `None`): a wheel constructed without a
`max_speed` argument carries `some 0`. -/
noncomputable def omniWheelDefaultMaxSpeed : Option ℝ := some 0

/-- Embedding of `chassis.HoloChassis`: an ordered list of wheels. -/
structure HoloChassis where
  wheels : List OmniWheel

/-- The closure `velocity_at(point)` inside `get_wheel_speeds`: velocity of the
rigid body at `point`, namely `(point - origin).cross() * rotation + translation`. -/
noncomputable def velocity_at (translation : Vec2) (rotation : ℝ) (origin : Point2)
    (point : Point2) : Vec2 :=
  (((point.subPoint origin).cross).mulScalar rotation).add translation

/-- The unscaled speed requested of one wheel:
`wheel.speed(velocity_at(wheel.position))`. -/
noncomputable def unscaled_speed (translation : Vec2) (rotation : ℝ) (origin : Point2)
    (w : OmniWheel) : ℝ :=
  w.speed (velocity_at translation rotation origin w.position)

/-- The list `wheel_speeds` computed by `get_wheel_speeds` before scaling. -/
noncomputable def HoloChassis.wheel_speeds_unscaled (c : HoloChassis) (translation : Vec2)
    (rotation : ℝ) (origin : Point2) : List ℝ :=
  c.wheels.map (unscaled_speed translation rotation origin)

/-- One iteration of the scaling loop in `get_wheel_speeds`: for a pair of an
unscaled speed and its wheel, if the wheel has a maximum speed and the speed
exceeds it in magnitude, lower the running scale to
`min scale (max_speed / abs speed)`; otherwise keep the scale. -/
noncomputable def scale_step (scale : ℝ) (sw : ℝ × OmniWheel) : ℝ :=
  match sw.2.max_speed with
  | none => scale
  | some ms => if |sw.1| > ms then min scale (ms / |sw.1|) else scale

/-- The final `scale` computed by the loop in `get_wheel_speeds`, starting
from `1.0` and folding over `zip(wheel_speeds, wheels)`. -/
noncomputable def HoloChassis.wheel_scale (c : HoloChassis) (translation : Vec2)
    (rotation : ℝ) (origin : Point2) : ℝ :=
  (((c.wheel_speeds_unscaled translation rotation origin).zip c.wheels).foldl scale_step 1)

/-- Embedding of `HoloChassis.get_wheel_speeds(translation, rotation, origin)`:
returns every unscaled wheel speed multiplied by the common scale, together
with the scale itself.  The Python default `origin=Point2(0, 0)` is passed
explicitly by callers here. -/
noncomputable def HoloChassis.get_wheel_speeds (c : HoloChassis) (translation : Vec2)
    (rotation : ℝ) (origin : Point2) : WheelSpeeds :=
  ⟨(c.wheel_speeds_unscaled translation rotation origin).map
      (fun s => s * c.wheel_scale translation rotation origin),
   c.wheel_scale translation rotation origin⟩

/-- Determinant of a 3×3 matrix given row by row. -/
noncomputable def det3 (a b c d e f g h i : ℝ) : ℝ :=
  a * (e * i - f * h) - b * (d * i - f * g) + c * (d * h - e * g)

/-- Determinant of the chassis coefficient matrix of a three-wheel chassis,
rows `(co_x, co_y, co_theta)` per wheel, as cached by `HoloChassis.__init__`. -/
noncomputable def chassisDet (w0 w1 w2 : OmniWheel) : ℝ :=
  det3 w0.co_x w0.co_y w0.co_theta w1.co_x w1.co_y w1.co_theta w2.co_x w2.co_y w2.co_theta

/-- Embedding of `HoloChassis.calculate_motion(speeds)`:
`numpy.linalg.solve(self._matrix_coefficients, speeds)` solved exactly by
Cramer's rule for the nonsingular 3×3 case; a non-square or singular system
raises `LinAlgError` in numpy, modelled as `none`. -/
noncomputable def HoloChassis.calculate_motion (c : HoloChassis) (speeds : List ℝ) :
    Option Motion :=
  match c.wheels, speeds with
  | [w0, w1, w2], [s0, s1, s2] =>
      if chassisDet w0 w1 w2 = 0 then none
      else
        some ⟨⟨det3 s0 w0.co_y w0.co_theta s1 w1.co_y w1.co_theta s2 w2.co_y w2.co_theta /
                 chassisDet w0 w1 w2,
               det3 w0.co_x s0 w0.co_theta w1.co_x s1 w1.co_theta w2.co_x s2 w2.co_theta /
                 chassisDet w0 w1 w2⟩,
              det3 w0.co_x w0.co_y s0 w1.co_x w1.co_y s1 w2.co_x w2.co_y s2 /
                chassisDet w0 w1 w2⟩
  | _, _ => none

/-! Helper lemmas about the Python float modulus. -/

lemma fmod_zero_left (m : ℝ) : fmod 0 m = 0 := by
  simp [fmod]

lemma fmod_eq_self (a m : ℝ) (h0 : 0 ≤ a) (h1 : a < m) : fmod a m = a := by
  have hm : 0 < m := lt_of_le_of_lt h0 h1
  have hfl : ⌊a / m⌋ = 0 := by
    rw [Int.floor_eq_zero_iff]
    constructor
    · exact div_nonneg h0 (le_of_lt hm)
    · exact (div_lt_one hm).mpr h1
  simp [fmod, hfl]

lemma fmod_eq_fract (a m : ℝ) (hm : m ≠ 0) : fmod a m = m * Int.fract (a / m) := by
  unfold fmod Int.fract
  rw [mul_sub, mul_div_cancel₀ a hm]

lemma fmod_fmod (a m : ℝ) (hm : m ≠ 0) : fmod (fmod a m) m = fmod a m := by
  rw [fmod_eq_fract a m hm, fmod_eq_fract (m * Int.fract (a / m)) m hm,
    mul_comm m (Int.fract (a / m)), mul_div_assoc, div_self hm, mul_one, Int.fract_fract,
    mul_comm]

lemma two_pi_ne_zero : (2 * Real.pi) ≠ 0 :=
  ne_of_gt (by positivity)

/-- Evaluation of the worked example from the `smallest_difference` docstring:
the code takes the final `else` branch and returns `2.5 + 1.0 - 2.6 = 0.9`. -/
lemma smallest_difference_example : smallest_difference 1 2.5 2.6 = 0.9 := by
  have h1 : fmod 1 2.6 = 1 := fmod_eq_self 1 2.6 (by norm_num) (by norm_num)
  have h2 : fmod 2.5 2.6 = 2.5 := fmod_eq_self 2.5 2.6 (by norm_num) (by norm_num)
  have habs : |(1 : ℝ) - 2.5| = 1.5 := by
    rw [abs_of_nonpos (by norm_num)]
    norm_num
  unfold smallest_difference
  rw [h1, h2, habs]
  rw [if_neg (by norm_num), if_neg (by norm_num)]
  norm_num

/-- C2: the spec claims `(a + smallestSignedDifference(a,b,m)) mod m = b mod m`
for all finite `a`, `b` and `m > 0`.  The code violates this at
`a = 1.0, b = 2.5, m = 2.6`: it returns `0.9`, and `(1.0 + 0.9) mod 2.6 = 1.9`
while `2.5 mod 2.6 = 2.5`.  (The code's own docstring promises the claimed
property, so this is a defect of the wraparound branches, which compute
`max - (a + b)` and `b + a - max` instead of `max - (a - b)` and
`b - a - max`.) -/
theorem claim_C2_smallest_difference_mod_fails :
    smallest_difference 1 2.5 2.6 = 0.9 ∧
    fmod (1 + smallest_difference 1 2.5 2.6) 2.6 ≠ fmod 2.5 2.6 := by
  refine ⟨smallest_difference_example, ?_⟩
  rw [smallest_difference_example]
  have h19 : (1 : ℝ) + 0.9 = 1.9 := by norm_num
  rw [h19, fmod_eq_self 1.9 2.6 (by norm_num) (by norm_num),
    fmod_eq_self 2.5 2.6 (by norm_num) (by norm_num)]
  norm_num

/-- C9: the spec (and the code's docstring) claim
`smallestSignedDifference(1.0, 2.5, 2.6) = -1.1`; the code actually returns
`0.9`. -/
theorem claim_C9_example_disagrees :
    smallest_difference 1 2.5 2.6 = 0.9 ∧ (0.9 : ℝ) ≠ -1.1 :=
  ⟨smallest_difference_example, by norm_num⟩

/-- C10: advancing any constructed Pose by the zero Motion for any time leaves
the Pose unchanged (position and already-normalised orientation). -/
theorem claim_C10_zero_motion_fixed (pos : Point2) (θ t : ℝ) :
    (mkPose pos θ).calculate_pose_change ⟨⟨0, 0⟩, 0⟩ t = mkPose pos θ := by
  unfold Pose.calculate_pose_change
  rw [if_neg (by simp)]
  show mkPose ((mkPose pos θ).position.addVec
      (rotate_vector ⟨0, 0⟩ (-(mkPose pos θ).orientation) ⟨0, 0⟩)) (mkPose pos θ).orientation =
    mkPose pos θ
  have hv : rotate_vector ⟨0, 0⟩ (-(mkPose pos θ).orientation) ⟨0, 0⟩ = ⟨0, 0⟩ := by
    simp [rotate_vector]
  rw [hv]
  have hp : pos.addVec ⟨0, 0⟩ = pos := by
    simp [Point2.addVec]
  show mkPose (pos.addVec ⟨0, 0⟩) (fmod θ (2 * Real.pi)) = mkPose pos θ
  rw [hp]
  unfold mkPose
  rw [fmod_fmod θ (2 * Real.pi) two_pi_ne_zero]

/-- C3: when the Motion has zero rotation, `calculate_pose_change` ignores the
elapsed time entirely — any two times give identical results — and the position
advances by exactly the translation vector rotated into world frame. -/
theorem claim_C3_zero_rotation_ignores_time (p : Pose) (m : Motion) (t1 t2 : ℝ)
    (h : m.rotation = 0) :
    p.calculate_pose_change m t1 = p.calculate_pose_change m t2 ∧
    (p.calculate_pose_change m t1).position =
      p.position.addVec (rotate_vector m.translation (-p.orientation) ⟨0, 0⟩) := by
  unfold Pose.calculate_pose_change
  rw [if_neg (by simp [h]), if_neg (by simp [h])]
  exact ⟨rfl, rfl⟩

/-- Witness for C3 at a concrete input: a pose at the origin facing north,
moving forward with no rotation, advanced for 0 and for 5 seconds. -/
theorem claim_C3_zero_rotation_ignores_time_witness :
    (Motion.mk ⟨0, 1⟩ 0).rotation = 0 ∧
    ((mkPose ⟨0, 0⟩ 0).calculate_pose_change ⟨⟨0, 1⟩, 0⟩ 0 =
        (mkPose ⟨0, 0⟩ 0).calculate_pose_change ⟨⟨0, 1⟩, 0⟩ 5 ∧
      ((mkPose ⟨0, 0⟩ 0).calculate_pose_change ⟨⟨0, 1⟩, 0⟩ 0).position =
        (mkPose ⟨0, 0⟩ 0).position.addVec
          (rotate_vector (⟨0, 1⟩ : Vec2) (-(mkPose ⟨0, 0⟩ 0).orientation) ⟨0, 0⟩)) :=
  ⟨rfl, claim_C3_zero_rotation_ignores_time (mkPose ⟨0, 0⟩ 0) ⟨⟨0, 1⟩, 0⟩ 0 5 rfl⟩

lemma make_vector_eq (position : Point2) (max_speed : Option ℝ) (v : Vec2) :
    OmniWheel.make position max_speed none none (some v)
      = if v.magnitude_squared = 0 then none else some ⟨position, max_speed, v⟩ := rfl

lemma make_angle_radius_eq (position : Point2) (max_speed : Option ℝ) (a r : ℝ) :
    OmniWheel.make position max_speed (some a) (some r) none
      = if (Vec2.mk (Real.sin a * (2 * Real.pi * r))
            (Real.cos a * (2 * Real.pi * r))).magnitude_squared = 0 then none
        else some ⟨position, max_speed,
          ⟨Real.sin a * (2 * Real.pi * r), Real.cos a * (2 * Real.pi * r)⟩⟩ := rfl

/-- The drive vector built from an angle/radius pair has squared magnitude
`(2*pi*radius)^2`, by `sin^2 + cos^2 = 1`. -/
lemma angle_radius_msq (a r : ℝ) :
    (Vec2.mk (Real.sin a * (2 * Real.pi * r))
        (Real.cos a * (2 * Real.pi * r))).magnitude_squared = (2 * Real.pi * r) ^ 2 := by
  unfold Vec2.magnitude_squared
  have h : Real.sin a * (2 * Real.pi * r) * (Real.sin a * (2 * Real.pi * r)) +
      Real.cos a * (2 * Real.pi * r) * (Real.cos a * (2 * Real.pi * r))
        = (Real.sin a ^ 2 + Real.cos a ^ 2) * (2 * Real.pi * r) ^ 2 := by ring
  rw [h, Real.sin_sq_add_cos_sq, one_mul]

/-- C8 counterexample: supplying a lone drive vector `(0, 0)` is exactly one of
the two specifications, so the claimed iff says construction succeeds; but the
constructor then computes `co_x = vector.x / vector_magnitude_squared` with a
zero denominator, raises `ZeroDivisionError`, and produces no wheel. -/
theorem claim_C8_counterexample_zero_vector :
    ¬ ((OmniWheel.make ⟨0, 0⟩ none none none (some ⟨0, 0⟩)).isSome ↔
        (((none : Option ℝ) = none ∧ (none : Option ℝ) = none ∧
            (some (⟨0, 0⟩ : Vec2)).isSome) ∨
          ((none : Option ℝ).isSome ∧ (none : Option ℝ).isSome ∧
            (some (⟨0, 0⟩ : Vec2)) = (none : Option Vec2)))) := by
  intro h
  have hnone : OmniWheel.make ⟨0, 0⟩ none none none (some ⟨0, 0⟩) = none := by
    rw [make_vector_eq, if_pos (by norm_num [Vec2.magnitude_squared])]
  rw [hnone] at h
  simp at h

/-- C8 (amended): wheel construction succeeds if and only if exactly one of the
two specifications is supplied and it yields a drive vector of nonzero
magnitude — a nonzero drive vector alone, or an angle together with a nonzero
radius and no vector.  Supplying both specifications, neither, a partial
angle/radius pair, a zero drive vector, or a zero radius produces no wheel
(`ValueError` from the validation, respectively `ZeroDivisionError` from the
coefficient computation). -/
theorem claim_C8_wheel_construction_iff_nonzero (position : Point2) (max_speed : Option ℝ)
    (angle radius : Option ℝ) (vector : Option Vec2) :
    (OmniWheel.make position max_speed angle radius vector).isSome ↔
      ((angle = none ∧ radius = none ∧
          ∃ v, vector = some v ∧ v.magnitude_squared ≠ 0) ∨
        (angle.isSome ∧ (∃ r, radius = some r ∧ r ≠ 0) ∧ vector = none)) := by
  rcases angle with _ | a
  · rcases radius with _ | r
    · rcases vector with _ | v
      · simp [OmniWheel.make]
      · rw [make_vector_eq]
        by_cases hv : v.magnitude_squared = 0
        · rw [if_pos hv]
          simp [hv]
        · rw [if_neg hv]
          simp [hv]
    · rcases vector with _ | v <;> simp [OmniWheel.make]
  · rcases radius with _ | r
    · rcases vector with _ | v <;> simp [OmniWheel.make]
    · rcases vector with _ | v
      · rw [make_angle_radius_eq, angle_radius_msq]
        by_cases hr : r = 0
        · rw [if_pos (by rw [hr]; ring)]
          simp [hr]
        · have h2 : (2 * Real.pi * r) ^ 2 ≠ 0 :=
            pow_ne_zero 2 (mul_ne_zero (mul_ne_zero two_ne_zero Real.pi_ne_zero) hr)
          rw [if_neg h2]
          simp [hr]
      · simp [OmniWheel.make]

/-- C1: the claim says the new position is obtained by rotating the old
position around the arc centre by `rotation * time`; the code rotates by
`rotation` alone.  At elapsed time `0` with rotation `pi` and translation
`(1, 0)` from the origin pose, the claim demands the position stay `(0, 0)`
(rotation by angle `pi * 0 = 0`), but the code moves it to `(0, -2 / pi)`. -/
theorem claim_C1_arc_rotation_ignores_time :
    ((mkPose ⟨0, 0⟩ 0).calculate_pose_change ⟨⟨1, 0⟩, Real.pi⟩ 0).position =
      (⟨0, -2 / Real.pi⟩ : Point2) ∧
    (⟨0, -2 / Real.pi⟩ : Point2) ≠ (⟨0, 0⟩ : Point2) := by
  constructor
  · unfold Pose.calculate_pose_change
    rw [if_pos (by simpa using Real.pi_ne_zero)]
    show (mkPose (rotate_point (mkPose ⟨0, 0⟩ 0).position Real.pi _) _).position = _
    simp only [mkPose, fmod_zero_left, rotate_vector, rotate_point, Vec2.cross, Vec2.divScalar,
      neg_zero, Real.sin_zero, Real.cos_zero, Real.sin_pi, Real.cos_pi]
    rw [Point2.mk.injEq]
    constructor <;> ring
  · rw [ne_eq, Point2.mk.injEq]
    rintro ⟨-, h⟩
    exact absurd h (div_ne_zero (by norm_num) Real.pi_ne_zero)

/-! Helper lemmas about the scaling loop of `get_wheel_speeds`. -/

lemma scale_step_none (sc : ℝ) (p : ℝ × OmniWheel) (h : p.2.max_speed = none) :
    scale_step sc p = sc := by
  unfold scale_step
  rw [h]

lemma scale_step_some (sc : ℝ) (p : ℝ × OmniWheel) (ms : ℝ) (h : p.2.max_speed = some ms) :
    scale_step sc p = if |p.1| > ms then min sc (ms / |p.1|) else sc := by
  unfold scale_step
  rw [h]

lemma scale_step_le (sc : ℝ) (p : ℝ × OmniWheel) : scale_step sc p ≤ sc := by
  rcases h : p.2.max_speed with _ | ms
  · rw [scale_step_none sc p h]
  · rw [scale_step_some sc p ms h]
    split
    · exact min_le_left _ _
    · exact le_refl sc

/-- The scaling loop, folded over a wheel list with `f` giving each wheel's
unscaled speed. -/
noncomputable def wheel_fold (f : OmniWheel → ℝ) (l : List OmniWheel) (init : ℝ) : ℝ :=
  l.foldl (fun sc w => scale_step sc (f w, w)) init

lemma zip_map_self (f : OmniWheel → ℝ) (l : List OmniWheel) :
    (l.map f).zip l = l.map (fun w => (f w, w)) := by
  induction l with
  | nil => rfl
  | cons w l ih => simp [ih]

lemma wheel_scale_eq_fold (c : HoloChassis) (t : Vec2) (r : ℝ) (o : Point2) :
    c.wheel_scale t r o = wheel_fold (unscaled_speed t r o) c.wheels 1 := by
  unfold HoloChassis.wheel_scale HoloChassis.wheel_speeds_unscaled
  rw [zip_map_self]
  exact List.foldl_map _ _ _ _

lemma wheel_fold_le (f : OmniWheel → ℝ) :
    ∀ (l : List OmniWheel) (init : ℝ), wheel_fold f l init ≤ init := by
  intro l
  induction l with
  | nil => intro init; exact le_refl init
  | cons w0 l ih =>
      intro init
      calc wheel_fold f (w0 :: l) init
          = wheel_fold f l (scale_step init (f w0, w0)) := rfl
        _ ≤ scale_step init (f w0, w0) := ih _
        _ ≤ init := scale_step_le _ _

lemma wheel_fold_le_of_mem (f : OmniWheel → ℝ) :
    ∀ (l : List OmniWheel) (init : ℝ) (w : OmniWheel), w ∈ l →
      ∀ ms : ℝ, w.max_speed = some ms → ms < |f w| →
      wheel_fold f l init ≤ ms / |f w| := by
  intro l
  induction l with
  | nil =>
      intro init w hw
      cases hw
  | cons w0 l ih =>
      intro init w hw ms hms hlt
      rcases List.mem_cons.mp hw with rfl | hmem
      · calc wheel_fold f (w :: l) init
            = wheel_fold f l (scale_step init (f w, w)) := rfl
          _ ≤ scale_step init (f w, w) := wheel_fold_le f l _
          _ ≤ ms / |f w| := by
              rw [scale_step_some init (f w, w) ms hms, if_pos hlt]
              exact min_le_right _ _
      · exact ih _ w hmem ms hms hlt

lemma wheel_fold_cases (f : OmniWheel → ℝ) :
    ∀ (l : List OmniWheel) (init : ℝ),
      wheel_fold f l init = init ∨
        ∃ w ∈ l, ∃ ms : ℝ, w.max_speed = some ms ∧ ms < |f w| ∧
          wheel_fold f l init = ms / |f w| := by
  intro l
  induction l with
  | nil => intro init; exact Or.inl rfl
  | cons w0 l ih =>
      intro init
      have hstep : wheel_fold f (w0 :: l) init
          = wheel_fold f l (scale_step init (f w0, w0)) := rfl
      rcases ih (scale_step init (f w0, w0)) with heq | ⟨w, hw, ms, hms, hlt, hval⟩
      · rcases h0 : w0.max_speed with _ | ms0
        · left
          rw [hstep, heq, scale_step_none _ _ h0]
        · by_cases hv : ms0 < |f w0|
          · rcases min_cases init (ms0 / |f w0|) with ⟨hmin, -⟩ | ⟨hmin, -⟩
            · left
              rw [hstep, heq, scale_step_some _ _ _ h0, if_pos hv, hmin]
            · right
              refine ⟨w0, List.mem_cons_self _ _, ms0, h0, hv, ?_⟩
              rw [hstep, heq, scale_step_some _ _ _ h0, if_pos hv, hmin]
          · left
            rw [hstep, heq, scale_step_some _ _ _ h0, if_neg hv]
      · right
        exact ⟨w, List.mem_cons_of_mem _ hw, ms, hms, hlt, by rw [hstep, hval]⟩

lemma wheel_fold_pos (f : OmniWheel → ℝ) :
    ∀ (l : List OmniWheel) (init : ℝ), 0 < init →
      (∀ w ∈ l, ∀ ms : ℝ, w.max_speed = some ms → 0 < ms) →
      0 < wheel_fold f l init := by
  intro l
  induction l with
  | nil => intro init h _; exact h
  | cons w0 l ih =>
      intro init hinit hpos
      have hstep : 0 < scale_step init (f w0, w0) := by
        rcases h0 : w0.max_speed with _ | ms0
        · rw [scale_step_none _ _ h0]
          exact hinit
        · have hms0 : 0 < ms0 := hpos w0 (List.mem_cons_self _ _) ms0 h0
          rw [scale_step_some _ _ _ h0]
          split
          · rename_i hgt
            exact lt_min hinit (div_pos hms0 (lt_trans hms0 hgt))
          · exact hinit
      exact ih _ hstep (fun w hw => hpos w (List.mem_cons_of_mem _ hw))

/-- C7 counterexample: the claim says the returned scaling is never zero, for
every chassis and request.  A wheel left with the Python default
`max_speed = 0` refutes it: requesting translation `(1, 0)` makes the wheel's
unscaled speed `1`, the loop computes `scale = min(1, 0 / 1) = 0`, and
`get_wheel_speeds` returns `scaling = 0`. -/
theorem claim_C7_counterexample_scaling_zero :
    (HoloChassis.get_wheel_speeds ⟨[⟨⟨0, 0⟩, some 0, ⟨1, 0⟩⟩]⟩ ⟨1, 0⟩ 0 ⟨0, 0⟩).scaling = 0 := by
  show HoloChassis.wheel_scale _ _ _ _ = 0
  unfold HoloChassis.wheel_scale HoloChassis.wheel_speeds_unscaled unscaled_speed OmniWheel.speed
    velocity_at
  norm_num [Vec2.dot, Vec2.add, Vec2.mulScalar, Vec2.cross, Point2.subPoint,
    Vec2.magnitude_squared, OmniWheel.vector_magnitude_squared, scale_step]

/-- C7 (amended): provided every wheel's maximum speed, where one is given, is
positive, the scaling returned by `get_wheel_speeds` lies in `(0, 1]` for every
chassis, translation, rotation and origin. -/
theorem claim_C7_scaling_in_unit_interval (c : HoloChassis) (t : Vec2) (r : ℝ) (o : Point2)
    (hpos : ∀ w ∈ c.wheels, ∀ ms : ℝ, w.max_speed = some ms → 0 < ms) :
    0 < (c.get_wheel_speeds t r o).scaling ∧ (c.get_wheel_speeds t r o).scaling ≤ 1 := by
  have hs : (c.get_wheel_speeds t r o).scaling
      = wheel_fold (unscaled_speed t r o) c.wheels 1 := wheel_scale_eq_fold c t r o
  rw [hs]
  exact ⟨wheel_fold_pos _ _ _ one_pos hpos, wheel_fold_le _ _ _⟩

/-- Witness for the amended C7: a single unconstrained wheel. -/
theorem claim_C7_scaling_in_unit_interval_witness :
    (∀ w ∈ [(⟨⟨0, 0⟩, none, ⟨1, 0⟩⟩ : OmniWheel)], ∀ ms : ℝ, w.max_speed = some ms → 0 < ms) ∧
    (0 < (HoloChassis.get_wheel_speeds ⟨[⟨⟨0, 0⟩, none, ⟨1, 0⟩⟩]⟩ ⟨1, 0⟩ 0 ⟨0, 0⟩).scaling ∧
      (HoloChassis.get_wheel_speeds ⟨[⟨⟨0, 0⟩, none, ⟨1, 0⟩⟩]⟩ ⟨1, 0⟩ 0 ⟨0, 0⟩).scaling ≤ 1) := by
  have hpos : ∀ w ∈ [(⟨⟨0, 0⟩, none, ⟨1, 0⟩⟩ : OmniWheel)], ∀ ms : ℝ,
      w.max_speed = some ms → 0 < ms := by
    intro w hw ms hms
    rcases List.mem_singleton.mp hw with rfl
    simp at hms
  exact ⟨hpos, claim_C7_scaling_in_unit_interval ⟨[⟨⟨0, 0⟩, none, ⟨1, 0⟩⟩]⟩ ⟨1, 0⟩ 0 ⟨0, 0⟩ hpos⟩

/-- C4 counterexample: the claim quantifies over every chassis, but a wheel
with a (pathological) negative speed limit refutes the bound
`|returned| ≤ maxSpeed`: with `max_speed = -1` and unscaled speed `1` the loop
sets `scaling = min(1, -1/1) = -1 < 1` and returns speed `-1`, whose absolute
value `1` exceeds the limit `-1`. -/
theorem claim_C4_counterexample_negative_limit :
    (HoloChassis.get_wheel_speeds ⟨[⟨⟨0, 0⟩, some (-1), ⟨1, 0⟩⟩]⟩ ⟨1, 0⟩ 0 ⟨0, 0⟩).scaling < 1 ∧
    (HoloChassis.get_wheel_speeds ⟨[⟨⟨0, 0⟩, some (-1), ⟨1, 0⟩⟩]⟩ ⟨1, 0⟩ 0 ⟨0, 0⟩).speeds
      = [-1] ∧
    ¬ (|(-1 : ℝ)| ≤ -1) := by
  have hsc : HoloChassis.wheel_scale ⟨[⟨⟨0, 0⟩, some (-1), ⟨1, 0⟩⟩]⟩ ⟨1, 0⟩ 0 ⟨0, 0⟩ = -1 := by
    unfold HoloChassis.wheel_scale HoloChassis.wheel_speeds_unscaled unscaled_speed
      OmniWheel.speed velocity_at
    norm_num [Vec2.dot, Vec2.add, Vec2.mulScalar, Vec2.cross, Point2.subPoint,
      Vec2.magnitude_squared, OmniWheel.vector_magnitude_squared, scale_step]
  refine ⟨?_, ?_, by norm_num⟩
  · show HoloChassis.wheel_scale _ _ _ _ < 1
    rw [hsc]
    norm_num
  · show (HoloChassis.wheel_speeds_unscaled _ _ _ _).map
        (fun s => s * HoloChassis.wheel_scale _ _ _ _) = [-1]
    rw [hsc]
    unfold HoloChassis.wheel_speeds_unscaled unscaled_speed OmniWheel.speed velocity_at
    norm_num [Vec2.dot, Vec2.add, Vec2.mulScalar, Vec2.cross, Point2.subPoint,
      Vec2.magnitude_squared, OmniWheel.vector_magnitude_squared]

/-- C4 (amended): provided every wheel's maximum speed, where one is given, is
positive, whenever `get_wheel_speeds` returns `scaling = s < 1` the returned
speeds are the unscaled speeds multiplied by `s`, at least one wheel's unscaled
speed satisfies `|speed| / maxSpeed = 1 / s` with its returned speed exactly at
its limit in magnitude, and every speed-limited wheel's returned speed is
within its limit in magnitude. -/
theorem claim_C4_throttling_binding (c : HoloChassis) (t : Vec2) (r : ℝ) (o : Point2)
    (hpos : ∀ w ∈ c.wheels, ∀ ms : ℝ, w.max_speed = some ms → 0 < ms)
    (hlt : (c.get_wheel_speeds t r o).scaling < 1) :
    (c.get_wheel_speeds t r o).speeds =
        c.wheels.map (fun w => unscaled_speed t r o w * (c.get_wheel_speeds t r o).scaling) ∧
    (∃ w ∈ c.wheels, ∃ ms : ℝ, w.max_speed = some ms ∧
        |unscaled_speed t r o w| / ms = 1 / (c.get_wheel_speeds t r o).scaling ∧
        |unscaled_speed t r o w * (c.get_wheel_speeds t r o).scaling| = ms) ∧
    (∀ w ∈ c.wheels, ∀ ms : ℝ, w.max_speed = some ms →
        |unscaled_speed t r o w * (c.get_wheel_speeds t r o).scaling| ≤ ms) := by
  have hsc : (c.get_wheel_speeds t r o).scaling
      = wheel_fold (unscaled_speed t r o) c.wheels 1 := wheel_scale_eq_fold c t r o
  have hspeeds : (c.get_wheel_speeds t r o).speeds
      = c.wheels.map (fun w => unscaled_speed t r o w * (c.get_wheel_speeds t r o).scaling) := by
    show (c.wheels.map (unscaled_speed t r o)).map
        (fun s => s * c.wheel_scale t r o) = _
    rw [List.map_map]
    rfl
  rcases wheel_fold_cases (unscaled_speed t r o) c.wheels 1 with heq | h
  · rw [hsc, heq] at hlt
    exact absurd hlt (lt_irrefl 1)
  obtain ⟨w, hw, ms, hms, hv, hval⟩ := h
  have hms0 : 0 < ms := hpos w hw ms hms
  have habs : 0 < |unscaled_speed t r o w| := lt_trans hms0 hv
  have habsne : |unscaled_speed t r o w| ≠ 0 := ne_of_gt habs
  have hσpos : 0 < wheel_fold (unscaled_speed t r o) c.wheels 1 := by
    rw [hval]
    exact div_pos hms0 habs
  have hσle1 : wheel_fold (unscaled_speed t r o) c.wheels 1 ≤ 1 :=
    wheel_fold_le (unscaled_speed t r o) c.wheels 1
  refine ⟨hspeeds, ⟨w, hw, ms, hms, ?_, ?_⟩, ?_⟩
  · rw [hsc, hval, one_div_div]
  · rw [hsc, hval, abs_mul, abs_of_nonneg (le_of_lt (div_pos hms0 habs))]
    field_simp
  · intro w2 hw2 ms2 hms2
    have hms2pos : 0 < ms2 := hpos w2 hw2 ms2 hms2
    rw [hsc, abs_mul, abs_of_nonneg (le_of_lt hσpos)]
    by_cases hcase : ms2 < |unscaled_speed t r o w2|
    · have hb : wheel_fold (unscaled_speed t r o) c.wheels 1
          ≤ ms2 / |unscaled_speed t r o w2| :=
        wheel_fold_le_of_mem (unscaled_speed t r o) c.wheels 1 w2 hw2 ms2 hms2 hcase
      have habs2 : (0 : ℝ) < |unscaled_speed t r o w2| := lt_trans hms2pos hcase
      calc |unscaled_speed t r o w2| * wheel_fold (unscaled_speed t r o) c.wheels 1
          ≤ |unscaled_speed t r o w2| * (ms2 / |unscaled_speed t r o w2|) :=
            mul_le_mul_of_nonneg_left hb (le_of_lt habs2)
        _ = ms2 := by field_simp
    · push_neg at hcase
      calc |unscaled_speed t r o w2| * wheel_fold (unscaled_speed t r o) c.wheels 1
          ≤ ms2 * 1 := mul_le_mul hcase hσle1 (le_of_lt hσpos) (le_of_lt hms2pos)
        _ = ms2 := mul_one ms2

/-- Witness for the amended C4: one wheel with limit 1 asked for speed 2 is
throttled with scaling 1/2. -/
theorem claim_C4_throttling_binding_witness :
    (∀ w ∈ [(⟨⟨0, 0⟩, some 1, ⟨1, 0⟩⟩ : OmniWheel)], ∀ ms : ℝ, w.max_speed = some ms → 0 < ms) ∧
    (HoloChassis.get_wheel_speeds ⟨[⟨⟨0, 0⟩, some 1, ⟨1, 0⟩⟩]⟩ ⟨2, 0⟩ 0 ⟨0, 0⟩).scaling < 1 ∧
    ((HoloChassis.get_wheel_speeds ⟨[⟨⟨0, 0⟩, some 1, ⟨1, 0⟩⟩]⟩ ⟨2, 0⟩ 0 ⟨0, 0⟩).speeds =
        [(⟨⟨0, 0⟩, some 1, ⟨1, 0⟩⟩ : OmniWheel)].map
          (fun w => unscaled_speed ⟨2, 0⟩ 0 ⟨0, 0⟩ w *
            (HoloChassis.get_wheel_speeds ⟨[⟨⟨0, 0⟩, some 1, ⟨1, 0⟩⟩]⟩ ⟨2, 0⟩ 0 ⟨0, 0⟩).scaling) ∧
      (∃ w ∈ [(⟨⟨0, 0⟩, some 1, ⟨1, 0⟩⟩ : OmniWheel)], ∃ ms : ℝ, w.max_speed = some ms ∧
          |unscaled_speed ⟨2, 0⟩ 0 ⟨0, 0⟩ w| / ms =
            1 / (HoloChassis.get_wheel_speeds ⟨[⟨⟨0, 0⟩, some 1, ⟨1, 0⟩⟩]⟩ ⟨2, 0⟩ 0 ⟨0, 0⟩).scaling ∧
          |unscaled_speed ⟨2, 0⟩ 0 ⟨0, 0⟩ w *
              (HoloChassis.get_wheel_speeds ⟨[⟨⟨0, 0⟩, some 1, ⟨1, 0⟩⟩]⟩ ⟨2, 0⟩ 0 ⟨0, 0⟩).scaling|
            = ms) ∧
      (∀ w ∈ [(⟨⟨0, 0⟩, some 1, ⟨1, 0⟩⟩ : OmniWheel)], ∀ ms : ℝ, w.max_speed = some ms →
          |unscaled_speed ⟨2, 0⟩ 0 ⟨0, 0⟩ w *
              (HoloChassis.get_wheel_speeds ⟨[⟨⟨0, 0⟩, some 1, ⟨1, 0⟩⟩]⟩ ⟨2, 0⟩ 0 ⟨0, 0⟩).scaling|
            ≤ ms)) := by
  have hpos : ∀ w ∈ [(⟨⟨0, 0⟩, some 1, ⟨1, 0⟩⟩ : OmniWheel)], ∀ ms : ℝ,
      w.max_speed = some ms → 0 < ms := by
    intro w hw ms hms
    rcases List.mem_singleton.mp hw with rfl
    simp only [Option.some.injEq] at hms
    rw [← hms]
    norm_num
  have hlt : (HoloChassis.get_wheel_speeds ⟨[⟨⟨0, 0⟩, some 1, ⟨1, 0⟩⟩]⟩ ⟨2, 0⟩ 0 ⟨0, 0⟩).scaling
      < 1 := by
    show HoloChassis.wheel_scale _ _ _ _ < 1
    unfold HoloChassis.wheel_scale HoloChassis.wheel_speeds_unscaled unscaled_speed
      OmniWheel.speed velocity_at
    norm_num [Vec2.dot, Vec2.add, Vec2.mulScalar, Vec2.cross, Point2.subPoint,
      Vec2.magnitude_squared, OmniWheel.vector_magnitude_squared, scale_step, abs_two]
  exact ⟨hpos, hlt,
    claim_C4_throttling_binding ⟨[⟨⟨0, 0⟩, some 1, ⟨1, 0⟩⟩]⟩ ⟨2, 0⟩ 0 ⟨0, 0⟩ hpos hlt⟩

/-- The unscaled speed of a wheel about the default origin is the linear form
of the cached coefficients: `co_x * tx + co_y * ty + co_theta * rotation`. -/
lemma unscaled_speed_eq_coefficients (t : Vec2) (r : ℝ) (w : OmniWheel) :
    unscaled_speed t r ⟨0, 0⟩ w = w.co_x * t.x + w.co_y * t.y + w.co_theta * r := by
  unfold unscaled_speed OmniWheel.speed velocity_at OmniWheel.co_x OmniWheel.co_y
    OmniWheel.co_theta OmniWheel.vector_magnitude_squared
  simp only [Vec2.dot, Vec2.add, Vec2.mulScalar, Vec2.cross, Point2.subPoint,
    Vec2.magnitude_squared]
  ring

lemma calculate_motion_three (w0 w1 w2 : OmniWheel) (s0 s1 s2 : ℝ) :
    HoloChassis.calculate_motion ⟨[w0, w1, w2]⟩ [s0, s1, s2]
      = if chassisDet w0 w1 w2 = 0 then none
        else some ⟨⟨det3 s0 w0.co_y w0.co_theta s1 w1.co_y w1.co_theta s2 w2.co_y w2.co_theta /
                      chassisDet w0 w1 w2,
                    det3 w0.co_x s0 w0.co_theta w1.co_x s1 w1.co_theta w2.co_x s2 w2.co_theta /
                      chassisDet w0 w1 w2⟩,
                   det3 w0.co_x w0.co_y s0 w1.co_x w1.co_y s1 w2.co_x w2.co_y s2 /
                     chassisDet w0 w1 w2⟩ := rfl

/-- C5: for a three-wheel chassis with nonsingular coefficient matrix, if
`get_wheel_speeds` at the default origin applies no throttling
(`scaling = 1`), then `calculate_motion` on the returned speeds reconstructs
the requested Motion exactly. -/
theorem claim_C5_roundtrip (w0 w1 w2 : OmniWheel) (m : Motion)
    (hD : chassisDet w0 w1 w2 ≠ 0)
    (hs : (HoloChassis.get_wheel_speeds ⟨[w0, w1, w2]⟩ m.translation m.rotation ⟨0, 0⟩).scaling
      = 1) :
    HoloChassis.calculate_motion ⟨[w0, w1, w2]⟩
      (HoloChassis.get_wheel_speeds ⟨[w0, w1, w2]⟩ m.translation m.rotation ⟨0, 0⟩).speeds
      = some m := by
  obtain ⟨⟨tx, ty⟩, ω⟩ := m
  dsimp only at hs ⊢
  have hσ : HoloChassis.wheel_scale ⟨[w0, w1, w2]⟩ ⟨tx, ty⟩ ω ⟨0, 0⟩ = 1 := hs
  have hspeeds :
      (HoloChassis.get_wheel_speeds ⟨[w0, w1, w2]⟩ ⟨tx, ty⟩ ω ⟨0, 0⟩).speeds
        = [unscaled_speed ⟨tx, ty⟩ ω ⟨0, 0⟩ w0,
           unscaled_speed ⟨tx, ty⟩ ω ⟨0, 0⟩ w1,
           unscaled_speed ⟨tx, ty⟩ ω ⟨0, 0⟩ w2] := by
    show (HoloChassis.wheel_speeds_unscaled _ _ _ _).map
        (fun s => s * HoloChassis.wheel_scale ⟨[w0, w1, w2]⟩ ⟨tx, ty⟩ ω ⟨0, 0⟩) = _
    rw [hσ]
    simp [HoloChassis.wheel_speeds_unscaled]
  rw [hspeeds, unscaled_speed_eq_coefficients, unscaled_speed_eq_coefficients,
    unscaled_speed_eq_coefficients, calculate_motion_three, if_neg hD,
    Option.some.injEq, Motion.mk.injEq, Vec2.mk.injEq]
  dsimp only
  refine ⟨⟨?_, ?_⟩, ?_⟩ <;>
    · rw [div_eq_iff hD]
      simp only [det3, chassisDet]
      ring

/-- Witness for C5: a concrete nonsingular three-wheel chassis with no speed
limits and the Motion `((3, 5), 7)`. -/
theorem claim_C5_roundtrip_witness :
    chassisDet ⟨⟨0, 0⟩, none, ⟨1, 0⟩⟩ ⟨⟨0, 0⟩, none, ⟨0, 1⟩⟩ ⟨⟨1, 0⟩, none, ⟨0, 1⟩⟩ ≠ 0 ∧
    (HoloChassis.get_wheel_speeds
        ⟨[⟨⟨0, 0⟩, none, ⟨1, 0⟩⟩, ⟨⟨0, 0⟩, none, ⟨0, 1⟩⟩, ⟨⟨1, 0⟩, none, ⟨0, 1⟩⟩]⟩
        ⟨3, 5⟩ 7 ⟨0, 0⟩).scaling = 1 ∧
    HoloChassis.calculate_motion
        ⟨[⟨⟨0, 0⟩, none, ⟨1, 0⟩⟩, ⟨⟨0, 0⟩, none, ⟨0, 1⟩⟩, ⟨⟨1, 0⟩, none, ⟨0, 1⟩⟩]⟩
        (HoloChassis.get_wheel_speeds
          ⟨[⟨⟨0, 0⟩, none, ⟨1, 0⟩⟩, ⟨⟨0, 0⟩, none, ⟨0, 1⟩⟩, ⟨⟨1, 0⟩, none, ⟨0, 1⟩⟩]⟩
          ⟨3, 5⟩ 7 ⟨0, 0⟩).speeds
      = some ⟨⟨3, 5⟩, 7⟩ := by
  have hD : chassisDet ⟨⟨0, 0⟩, none, ⟨1, 0⟩⟩ ⟨⟨0, 0⟩, none, ⟨0, 1⟩⟩ ⟨⟨1, 0⟩, none, ⟨0, 1⟩⟩
      ≠ 0 := by
    unfold chassisDet det3 OmniWheel.co_x OmniWheel.co_y OmniWheel.co_theta
      OmniWheel.vector_magnitude_squared
    norm_num [Vec2.magnitude_squared]
  have hs : (HoloChassis.get_wheel_speeds
      ⟨[⟨⟨0, 0⟩, none, ⟨1, 0⟩⟩, ⟨⟨0, 0⟩, none, ⟨0, 1⟩⟩, ⟨⟨1, 0⟩, none, ⟨0, 1⟩⟩]⟩
      ⟨3, 5⟩ 7 ⟨0, 0⟩).scaling = 1 := by
    show HoloChassis.wheel_scale _ _ _ _ = 1
    unfold HoloChassis.wheel_scale HoloChassis.wheel_speeds_unscaled
    simp [scale_step]
  exact ⟨hD, hs, claim_C5_roundtrip _ _ _ ⟨⟨3, 5⟩, 7⟩ hD hs⟩

/-- C6: the claim (and the Python docstring) say an omitted `max_speed`
argument leaves the wheel unconstrained, behaving as if the limit were
`None`.  The signature actually defaults `max_speed` to `0`: a
default-constructed wheel asked for unscaled speed `1` has its returned speed
throttled to `0`, while the same wheel with limit `None` returns `1`
unscaled. -/
theorem claim_C6_default_max_speed_not_none :
    OmniWheel.make ⟨0, 0⟩ omniWheelDefaultMaxSpeed none none (some ⟨1, 0⟩)
      = some ⟨⟨0, 0⟩, some 0, ⟨1, 0⟩⟩ ∧
    (HoloChassis.get_wheel_speeds ⟨[⟨⟨0, 0⟩, some 0, ⟨1, 0⟩⟩]⟩ ⟨1, 0⟩ 0 ⟨0, 0⟩).speeds = [0] ∧
    (HoloChassis.get_wheel_speeds ⟨[⟨⟨0, 0⟩, none, ⟨1, 0⟩⟩]⟩ ⟨1, 0⟩ 0 ⟨0, 0⟩).speeds = [1] := by
  refine ⟨?_, ?_, ?_⟩
  · rw [make_vector_eq, if_neg (by norm_num [Vec2.magnitude_squared])]
    rfl
  · show (HoloChassis.wheel_speeds_unscaled _ _ _ _).map
        (fun s => s * HoloChassis.wheel_scale _ _ _ _) = [0]
    have hsc : HoloChassis.wheel_scale ⟨[⟨⟨0, 0⟩, some 0, ⟨1, 0⟩⟩]⟩ ⟨1, 0⟩ 0 ⟨0, 0⟩ = 0 := by
      unfold HoloChassis.wheel_scale HoloChassis.wheel_speeds_unscaled unscaled_speed
        OmniWheel.speed velocity_at
      norm_num [Vec2.dot, Vec2.add, Vec2.mulScalar, Vec2.cross, Point2.subPoint,
        Vec2.magnitude_squared, OmniWheel.vector_magnitude_squared, scale_step]
    rw [hsc]
    simp [HoloChassis.wheel_speeds_unscaled]
  · show (HoloChassis.wheel_speeds_unscaled _ _ _ _).map
        (fun s => s * HoloChassis.wheel_scale _ _ _ _) = [1]
    have hsc : HoloChassis.wheel_scale ⟨[⟨⟨0, 0⟩, none, ⟨1, 0⟩⟩]⟩ ⟨1, 0⟩ 0 ⟨0, 0⟩ = 1 := by
      unfold HoloChassis.wheel_scale HoloChassis.wheel_speeds_unscaled
      simp [scale_step]
    rw [hsc]
    unfold HoloChassis.wheel_speeds_unscaled unscaled_speed OmniWheel.speed velocity_at
    norm_num [Vec2.dot, Vec2.add, Vec2.mulScalar, Vec2.cross, Point2.subPoint,
      Vec2.magnitude_squared, OmniWheel.vector_magnitude_squared]
